import Mathlib

/-!
Verification of the bytecheck validator engine against its specification.

The definitions below are a shallow embedding of `src/bytecheck/src/lib.rs`
(the runtime validators and the error/context model) and of the checker
bodies emitted by `src/bytecheck_derive/src/lib.rs` (the struct and enum
`check_bytes` implementations).  Memory regions are abstracted to the data
the corresponding `check_bytes` implementation actually reads: the byte for
`bool`, the `u32` value for `char`, the element list for arrays and slices,
and an abstract region type threaded through derived field checkers.
-/

/--
A context frame, as attached by `Contextual::context` (lib.rs line 226) /
the derive's `Trace::trace` calls.  One constructor per context struct of
lib.rs: `TupleIndexContext` (line 475), `ArrayCheckContext` (line 540),
`SliceCheckContext` (line 578), `StructCheckContext` (line 653),
`TupleStructCheckContext` (line 672), `NamedEnumVariantCheckContext`
(line 716), `UnnamedEnumVariantCheckContext` (line 738), and
`ManuallyDropContext` (line 366).  Fields mirror the Rust struct fields.
-/
inductive Frame where
  | tupleIndex (index : Nat)
  | arrayCheck (index : Nat)
  | sliceCheck (index : Nat)
  | structCheck (struct_name : String) (field_name : String)
  | tupleStructCheck (tuple_struct_name : String) (field_index : Nat)
  | namedEnumVariantCheck (enum_name : String) (variant_name : String)
      (field_name : String)
  | unnamedEnumVariantCheck (enum_name : String) (variant_name : String)
      (field_index : Nat)
  | manuallyDropCheck
deriving DecidableEq

/--
A root cause, as passed to `Contextual::new` / `new_with` by the validators:
`BoolCheckError` with its offending byte (lib.rs line 405), core's
`CharTryFromError` — a unit struct in the Rust core library, carrying no
payload — produced by `char::try_from` (lib.rs line 469), `NonZeroCheckError`
(lib.rs line 897, fieldless), and `InvalidEnumDiscriminantError` with the
enum name and raw discriminant (lib.rs line 691).
-/
inductive Cause where
  | boolCheckError (byte : Nat)
  | charTryFromError
  | nonZeroCheckError
  | invalidEnumDiscriminantError (enum_name : String)
      (invalid_discriminant : Int)
deriving DecidableEq

/--
Modelled from the spec: the detailed Error kind ("retains the full causal
chain for diagnostics", spec section 3; the concrete `BoxedError` lives in
`boxed_error.rs`, which is not under `src/`).  It is the free model of the
`Contextual` interface of lib.rs lines 209-230: `new` records the cause,
`context` appends the frame, so the chain is append-only with the outermost
frame last-attached.  Validators are embedded against this error type so
their theorems can observe exactly which cause and frames the source
attaches.
-/
structure TraceError where
  cause : Cause
  frames : List Frame
deriving DecidableEq

/-- Embeds `Contextual::new` for the detailed kind: record the cause, no
frames. -/
def TraceError.new (source : Cause) : TraceError := ⟨source, []⟩

/--
Embeds the `Contextual::new_with` default method (lib.rs line 221):
`Self::new(make_source())` — the detailed kind forces the lazy cause.
-/
def TraceError.new_with (make_source : Unit → Cause) : TraceError :=
  TraceError.new (make_source ())

/--
Embeds `Contextual::context` for the detailed kind: wrap with one more
frame.
Append-only; the original cause stays reachable (spec section 3 invariant).
-/
def TraceError.context (self : TraceError) (c : Frame) : TraceError :=
  ⟨self.cause, self.frames ++ [c]⟩

/--
Embeds `Result<(), E>` as returned by every `check_bytes` implementation
(lib.rs line 304).
-/
inductive CheckResult (ε : Type) where
  | ok : CheckResult ε
  | error : ε → CheckResult ε
deriving DecidableEq

/-- Abbreviation for the result type used by the detailed-error embedding. -/
abbrev CheckR := CheckResult TraceError

/--
Embeds `Failure` (lib.rs line 241): the minimal error kind, a fieldless
struct that
only remembers that some failure occurred.
-/
structure Failure where
deriving DecidableEq

/--
Embeds `<Failure as Contextual>::new` (lib.rs line 253): discards the
source and
returns `Self`.  Polymorphic in the source type, as in the Rust generic.
-/
def Failure.new {T : Type} (_source : T) : Failure := ⟨⟩

/--
Embeds `<Failure as Contextual>::new_with` (lib.rs line 257): overrides
the default
method, discards the closure without calling it, and returns `Self`.  The
body never applies `_make_source`, for any source type `T`.
-/
def Failure.new_with {T : Type} (_make_source : Unit → T) : Failure := ⟨⟩

/--
Embeds `<Failure as Contextual>::context` (lib.rs line 261): discards the
frame and
returns `self` unchanged.
-/
def Failure.context {T : Type} (self : Failure) (_c : T) : Failure := self

/--
Embeds `impl_primitive!` (lib.rs lines 310-323): `check_bytes` for
fixed-width
integers, floats, unit, etc. always returns `Ok(())` without reading the
region.
-/
def checkPrimitive {α : Type} (_value : α) : CheckR := .ok

/--
Embeds `<bool as CheckBytes>::check_bytes` (lib.rs lines 425-441): read
the single
byte; `0` and `1` are legal, any other byte fails with
`BoolCheckError { byte }`.
-/
def checkBool (byte : Nat) : CheckR :=
  match byte with
  | 0 => .ok
  | 1 => .ok
  | _ => .error (TraceError.new_with fun _ => Cause.boolCheckError byte)

/--
Core's `char::try_from(u32)`: errors (with the payload-free
`CharTryFromError`) exactly when the value exceeds `char::MAX = 0x10FFFF`
or lies in the surrogate range `0xD800..=0xDFFF`.
-/
def charTryFrom (i : Nat) : CheckResult Cause :=
  if 0x10FFFF < i || (0xD800 ≤ i && i < 0xE000) then
    .error Cause.charTryFromError
  else
    .ok

/--
Embeds `<char as CheckBytes>::check_bytes` (lib.rs lines 461-472): read
the 4-byte
value (unaligned read of a `u32`), then
`char::try_from(value).map_err(C::Error::new)`.
-/
def checkChar (value : Nat) : CheckR :=
  match charTryFrom value with
  | .ok => .ok
  | .error c => .error (TraceError.new c)

/--
The value of a `w`-bit two's-complement bit pattern `v` read as the signed
integer type of width `w`, as done by `*value.cast::<iN>()` in
`impl_nonzero!` (lib.rs line 924) for the signed non-zero types.
-/
def toSignedInt (w : Nat) (v : Nat) : Int :=
  if v < 2 ^ (w - 1) then (v : Int) else (v : Int) - 2 ^ w

/--
Embeds the `impl_nonzero!` `check_bytes` (lib.rs lines 910-932) for the
unsigned
non-zero types: read the underlying integer; zero fails with
`NonZeroCheckError`, anything else succeeds.  `v` is the bit pattern read
as the unsigned underlying type.
-/
def checkNonZeroUnsigned (v : Nat) : CheckR :=
  if v = 0 then .error (TraceError.new_with fun _ => Cause.nonZeroCheckError)
  else .ok

/--
Embeds the `impl_nonzero!` `check_bytes` (lib.rs lines 910-932) for the
signed
non-zero types of width `w`: the bit pattern `v` is read as the signed
underlying integer and compared with `0`.
-/
def checkNonZeroSigned (w : Nat) (v : Nat) : CheckR :=
  if toSignedInt w v = 0 then
    .error (TraceError.new_with fun _ => Cause.nonZeroCheckError)
  else .ok

/--
The loop body of `<[T; N] as CheckBytes>::check_bytes` (lib.rs lines
553-575), started at loop counter `start`: check each remaining element in
order; the first failure is wrapped with `ArrayCheckContext { index }` at
the current counter and returned, skipping the rest.  The region is
abstracted to the list of its `N` elements, and the element type's
`check_bytes` to the function `check`.
-/
def checkArrayFrom {α : Type} (check : α → CheckR) (start : Nat) :
    List α → CheckR
  | [] => .ok
  | x :: rest =>
    match check x with
    | .ok => checkArrayFrom check (start + 1) rest
    | .error e => .error (e.context (Frame.arrayCheck start))

/--
Embeds `<[T; N] as CheckBytes>::check_bytes` (lib.rs lines 553-575): the
loop `for index in 0..N` over the array's elements.
-/
def checkArray {α : Type} (check : α → CheckR) (elems : List α) : CheckR :=
  checkArrayFrom check 0 elems

/--
The loop body of `<[T] as CheckBytes>::check_bytes` (lib.rs lines 591-610),
started at loop counter `start`; identical to the array loop except that
failures are wrapped with `SliceCheckContext { index }`.
-/
def checkSliceFrom {α : Type} (check : α → CheckR) (start : Nat) :
    List α → CheckR
  | [] => .ok
  | x :: rest =>
    match check x with
    | .ok => checkSliceFrom check (start + 1) rest
    | .error e => .error (e.context (Frame.sliceCheck start))

/--
Embeds `<[T] as CheckBytes>::check_bytes` (lib.rs lines 591-610): the
loop `for index in 0..len` where `len` comes from the pointer metadata — here,
the length of the element list.
-/
def checkSlice {α : Type} (check : α → CheckR) (elems : List α) : CheckR :=
  checkSliceFrom check 0 elems

/--
Embeds `<ops::Range<T> as CheckBytes>::check_bytes` (lib.rs lines
762-799): check
the `start` field, wrapping a failure with
`StructCheckContext { struct_name: "Range", field_name: "start" }`, then
the `end` field likewise with field name `"end"`; succeed when both
succeed.  No relation between the two fields is checked.
-/
def checkRange {α : Type} (check : α → CheckR) (start_v : α) (end_v : α) :
    CheckR :=
  match check start_v with
  | .error e => .error (e.context (Frame.structCheck "Range" "start"))
  | .ok =>
    match check end_v with
    | .error e => .error (e.context (Frame.structCheck "Range" "end"))
    | .ok => .ok

-- Model of the checker bodies emitted by the derive for enums
-- (bytecheck_derive/src/lib.rs lines 332-547).  A region is an abstract
-- type `ρ`; each field checker is the composition of the generated pointer
-- projection with the field type's `check_bytes`, so it is a function of
-- the whole region.

/--
The field list of one enum variant, as matched by `check_arms`
(bytecheck_derive lib.rs lines 448-482): named fields carry their name,
unnamed fields are positional, a unit variant has no payload.
-/
inductive FieldsShape (ρ : Type) where
  | named (fields : List (String × (ρ → CheckR)))
  | unnamed (fields : List (ρ → CheckR))
  | unit

/-- One declared enum variant: its name, its tag value (the value of the
`Tag` discriminant constant, an integer of the explicit `repr`), and its
field list. -/
structure VariantShape (ρ : Type) where
  variant_name : String
  tag : Int
  fields : FieldsShape ρ

/-- A derived enum: its name, the discriminant read
`let tag = *value.cast::<repr>()` (bytecheck_derive lib.rs line 536), and
its declared variants.  Rust rejects duplicate discriminants in the
generated `#[repr(int)] enum Tag`, so tags are distinct. -/
structure EnumShape (ρ : Type) where
  enum_name : String
  read_tag : ρ → Int
  variants : List (VariantShape ρ)

/--
The check sequence generated by `check_arm_named_field` (bytecheck_derive
lib.rs lines 559-586) for a named-field variant: check each field in
declaration order; the first failure is traced with
`NamedEnumVariantCheckContext` carrying the enum name, variant name and
field name, and returned by `?`.
-/
def checkNamedFields {ρ : Type} (enum_name : String) (variant_name : String)
    (fields : List (String × (ρ → CheckR))) (r : ρ) : CheckR :=
  match fields with
  | [] => .ok
  | (field_name, check) :: rest =>
    match check r with
    | .ok => checkNamedFields enum_name variant_name rest r
    | .error e =>
      .error (e.context
        (Frame.namedEnumVariantCheck enum_name variant_name field_name))

/--
The check sequence generated by `check_arm_unnamed_field` (bytecheck_derive
lib.rs lines 588-616) for an unnamed-field variant, starting at enumeration
index `i`: for the field at enumeration index `i` the generated code sets
`index = Index::from(i + 1)` — the field's position in the synthesized
`VariantX` struct, whose component 0 is the tag — and uses that same
`index` both for the pointer projection and for the reported
`UnnamedEnumVariantCheckContext::field_index`.  So the first failure at
enumeration index `i` is traced with `field_index = i + 1`.
-/
def checkUnnamedFieldsFrom {ρ : Type} (enum_name : String)
    (variant_name : String) (i : Nat) (fields : List (ρ → CheckR)) (r : ρ) :
    CheckR :=
  match fields with
  | [] => .ok
  | check :: rest =>
    match check r with
    | .ok => checkUnnamedFieldsFrom enum_name variant_name (i + 1) rest r
    | .error e =>
      .error (e.context
        (Frame.unnamedEnumVariantCheck enum_name variant_name (i + 1)))

/--
One `check_arms` match arm (bytecheck_derive lib.rs lines 448-482): cast
the region to the variant struct and run the variant's field checks; a
unit variant has no checks (`(),`).
-/
def checkVariant {ρ : Type} (enum_name : String) (v : VariantShape ρ)
    (r : ρ) : CheckR :=
  match v.fields with
  | .named fs => checkNamedFields enum_name v.variant_name fs r
  | .unnamed fs => checkUnnamedFieldsFrom enum_name v.variant_name 0 fs r
  | .unit => .ok

/--
The generated enum `check_bytes` body (bytecheck_derive lib.rs lines
529-543, without a `verify` attribute): read the discriminant once, match
it against the declared tag constants — the first (and only) matching arm
runs that variant's field checks — and, when no arm matches, return
`Err(Error::new(InvalidEnumDiscriminantError { enum_name, tag }))`
(`no_matching_tag_arm`, lines 484-497); otherwise fall through to
`Ok(())`.
-/
def checkEnum {ρ : Type} (sh : EnumShape ρ) (r : ρ) : CheckR :=
  let tag := sh.read_tag r
  match sh.variants.find? (fun v => v.tag == tag) with
  | some v => checkVariant sh.enum_name v r
  | none =>
    .error (TraceError.new
      (Cause.invalidEnumDiscriminantError sh.enum_name tag))

/--
The generated `check_bytes` for a `Fields::Unit` struct (bytecheck_derive
lib.rs lines 307-330, without a `verify` attribute): the body is just
`Ok(())`, for every region contents.
-/
def checkUnitStruct {ρ : Type} (_r : ρ) : CheckR := .ok

example : checkArray checkBool [0, 1, 7, 5]
    = .error ⟨Cause.boolCheckError 7, [Frame.arrayCheck 2]⟩ := by decide
example : checkSlice checkBool [1, 1] = .ok := by decide
example : checkRange checkPrimitive (5 : Nat) 3 = .ok := by decide
example : checkEnum (ρ := Int) ⟨"E", fun t => t, [⟨"A", 0, .unit⟩]⟩ 4
    = .error ⟨Cause.invalidEnumDiscriminantError "E" 4, []⟩ := by decide
example :
    checkEnum (ρ := Int)
      ⟨"E", fun _ => 0, [⟨"V", 0, .unnamed [fun _ => checkBool 7]⟩]⟩ 0
    = .error ⟨Cause.boolCheckError 7,
        [Frame.unnamedEnumVariantCheck "E" "V" 1]⟩ := by decide

-- Helper lemmas shared by the claims below.

/-- Two lists agreeing on their first `k + 1` elements have equal entries at
every index `i ≤ k` present in both. -/
theorem take_agree_get {α : Type} {l₁ l₂ : List α} {k : Nat}
    (h : l₁.take (k + 1) = l₂.take (k + 1)) (i : Nat) (hik : i < k + 1)
    (h₁ : i < l₁.length) (h₂ : i < l₂.length) :
    l₁.get ⟨i, h₁⟩ = l₂.get ⟨i, h₂⟩ := by
  have hh₁ : i < (l₁.take (k + 1)).length := by
    simp only [List.length_take]
    omega
  have hh₂ : i < (l₂.take (k + 1)).length := by
    simp only [List.length_take]
    omega
  have e₁ := List.getElem_take l₁ (j := k + 1) (h := hh₁)
  have e₂ := List.getElem_take l₂ (j := k + 1) (h := hh₂)
  have hmid := List.getElem_of_eq h hh₁
  simp only [List.get_eq_getElem]
  exact e₁.symm.trans (hmid.trans e₂)

/-- If two lists agree on their first `k + 1` elements and `k` is a valid
index of the first, it is a valid index of the second. -/
theorem take_agree_length {α : Type} {l₁ l₂ : List α} {k : Nat}
    (h : l₁.take (k + 1) = l₂.take (k + 1)) (hk : k < l₁.length) :
    k < l₂.length := by
  have hlen := congrArg List.length h
  simp only [List.length_take] at hlen
  omega

/-- Lists agreeing on their first `k + 1` elements agree on their first `k`
elements. -/
theorem take_agree_mono {α : Type} {l₁ l₂ : List α} {k : Nat}
    (h : l₁.take (k + 1) = l₂.take (k + 1)) :
    l₁.take k = l₂.take k := by
  have h1 : (l₁.take (k + 1)).take k = (l₂.take (k + 1)).take k := by rw [h]
  rwa [List.take_take, List.take_take, show min k (k + 1) = k by omega] at h1

/-- The array loop from counter `start`: if the elements before position `k`
all check and the element at `k` fails with `e`, the loop returns `e`
wrapped with `ArrayCheckContext` at index `start + k`. -/
theorem checkArrayFrom_first_fail {α : Type} (check : α → CheckR)
    (e : TraceError) (elems : List α) :
    ∀ (k start : Nat) (hk : k < elems.length),
      (∀ x ∈ elems.take k, check x = .ok) →
      check (elems.get ⟨k, hk⟩) = .error e →
      checkArrayFrom check start elems
        = .error (e.context (Frame.arrayCheck (start + k))) := by
  induction elems with
  | nil => intro k start hk _ _; simp at hk
  | cons x rest ih =>
    intro k start hk hpre hfail
    cases k with
    | zero =>
      have hx : check x = .error e := hfail
      simp [checkArrayFrom, hx]
    | succ j =>
      have hx : check x = .ok := by
        apply hpre x
        simp only [List.take_succ_cons]
        exact List.mem_cons_self x _
      have hj : j < rest.length := Nat.lt_of_succ_lt_succ hk
      have hpre' : ∀ y ∈ rest.take j, check y = .ok := by
        intro y hy
        apply hpre y
        simp only [List.take_succ_cons]
        exact List.mem_cons_of_mem x hy
      simp only [checkArrayFrom, hx]
      rw [show start + (j + 1) = start + 1 + j by omega]
      exact ih j (start + 1) hj hpre' hfail

/-- The slice loop from counter `start`: same first-failure behavior as the
array loop, with `SliceCheckContext` frames. -/
theorem checkSliceFrom_first_fail {α : Type} (check : α → CheckR)
    (e : TraceError) (elems : List α) :
    ∀ (k start : Nat) (hk : k < elems.length),
      (∀ x ∈ elems.take k, check x = .ok) →
      check (elems.get ⟨k, hk⟩) = .error e →
      checkSliceFrom check start elems
        = .error (e.context (Frame.sliceCheck (start + k))) := by
  induction elems with
  | nil => intro k start hk _ _; simp at hk
  | cons x rest ih =>
    intro k start hk hpre hfail
    cases k with
    | zero =>
      have hx : check x = .error e := hfail
      simp [checkSliceFrom, hx]
    | succ j =>
      have hx : check x = .ok := by
        apply hpre x
        simp only [List.take_succ_cons]
        exact List.mem_cons_self x _
      have hj : j < rest.length := Nat.lt_of_succ_lt_succ hk
      have hpre' : ∀ y ∈ rest.take j, check y = .ok := by
        intro y hy
        apply hpre y
        simp only [List.take_succ_cons]
        exact List.mem_cons_of_mem x hy
      simp only [checkSliceFrom, hx]
      rw [show start + (j + 1) = start + 1 + j by omega]
      exact ih j (start + 1) hj hpre' hfail

/--
Claim C1: for every fixed array and every slice, `check_bytes` validates
elements at indices `0..N-1` (resp. `0..len-1`) in increasing order; if
element `k` is the first invalid element, it returns the child error
wrapped with exactly one context frame whose index equals `k`, and no
element after index `k` is checked: the result is the same for every
element list agreeing with the given one on indices `0..k`.
-/
theorem check_array_slice_first_failure {α : Type}
    (check : α → CheckR) (elems : List α) (k : Nat) (hk : k < elems.length)
    (hpre : ∀ x ∈ elems.take k, check x = .ok)
    (e : TraceError) (hfail : check (elems.get ⟨k, hk⟩) = .error e) :
    checkArray check elems = .error (e.context (Frame.arrayCheck k))
    ∧ checkSlice check elems = .error (e.context (Frame.sliceCheck k))
    ∧ (e.context (Frame.arrayCheck k)).frames
        = e.frames ++ [Frame.arrayCheck k]
    ∧ (∀ l' : List α, l'.take (k + 1) = elems.take (k + 1) →
        checkArray check l' = .error (e.context (Frame.arrayCheck k))
        ∧ checkSlice check l' = .error (e.context (Frame.sliceCheck k))) := by
  have main : ∀ l' : List α, l'.take (k + 1) = elems.take (k + 1) →
      checkArray check l' = .error (e.context (Frame.arrayCheck k))
      ∧ checkSlice check l' = .error (e.context (Frame.sliceCheck k)) := by
    intro l' hl'
    have hk' : k < l'.length := take_agree_length hl'.symm hk
    have hpre' : ∀ x ∈ l'.take k, check x = .ok := by
      intro x hx
      exact hpre x (take_agree_mono hl' ▸ hx)
    have hfail' : check (l'.get ⟨k, hk'⟩) = .error e := by
      rw [take_agree_get hl' k (Nat.lt_succ_self k) hk' hk]
      exact hfail
    constructor
    · have := checkArrayFrom_first_fail check e l' k 0 hk' hpre' hfail'
      simpa [checkArray] using this
    · have := checkSliceFrom_first_fail check e l' k 0 hk' hpre' hfail'
      simpa [checkSlice] using this
  exact ⟨(main elems rfl).1, (main elems rfl).2, rfl, main⟩

/--
Witness for C1: bytes `[0, 1, 7, 5]` checked as booleans fail at index 2
with the child `BoolCheckError` wrapped by exactly the index-2 frame, for
the array and the slice loop alike, and the result is unchanged when the
element after the failure differs (`[0, 1, 7, 9]`).
-/
theorem check_array_slice_first_failure_witness :
    checkArray checkBool [0, 1, 7, 5]
      = .error ⟨Cause.boolCheckError 7, [Frame.arrayCheck 2]⟩
    ∧ checkSlice checkBool [0, 1, 7, 5]
      = .error ⟨Cause.boolCheckError 7, [Frame.sliceCheck 2]⟩
    ∧ checkArray checkBool [0, 1, 7, 9]
      = .error ⟨Cause.boolCheckError 7, [Frame.arrayCheck 2]⟩ := by
  have h := check_array_slice_first_failure checkBool [0, 1, 7, 5] 2
    (by decide) (by decide) ⟨Cause.boolCheckError 7, []⟩ (by decide)
  exact ⟨h.1, h.2.1, (h.2.2.2 [0, 1, 7, 9] (by decide)).1⟩

/--
Claim C2: if the discriminant read at the start of the region matches no
declared variant tag, the derived enum `check_bytes` fails immediately
with `InvalidEnumDiscriminantError` carrying the enum's name and the raw
discriminant, and no variant payload field is validated (the conclusion
holds for arbitrary field checkers in every variant); the call depends on
the region only through the single discriminant read: any region with the
same discriminant gives the same result.
-/
theorem check_enum_invalid_discriminant {ρ : Type} (sh : EnumShape ρ)
    (r : ρ) (h : ∀ v ∈ sh.variants, v.tag ≠ sh.read_tag r) :
    checkEnum sh r
      = .error (TraceError.new
          (Cause.invalidEnumDiscriminantError sh.enum_name (sh.read_tag r)))
    ∧ ∀ r' : ρ, sh.read_tag r' = sh.read_tag r →
        checkEnum sh r' = checkEnum sh r := by
  have hnone :
      sh.variants.find? (fun v => v.tag == sh.read_tag r) = none := by
    rw [List.find?_eq_none]
    intro v hv
    simpa using h v hv
  constructor
  · simp [checkEnum, hnone]
  · intro r' hr'
    simp [checkEnum, hr', hnone]

/-- A derived enum shaped like `#[repr(i32)] enum E { A = 0, B = 1 }`, with
the region abstracted to the discriminant value it holds. -/
def enumTwoUnit : EnumShape Int :=
  ⟨"E", fun t => t, [⟨"A", 0, FieldsShape.unit⟩, ⟨"B", 1, FieldsShape.unit⟩]⟩

/-- Witness for C2: discriminant 5 matches neither tag 0 nor tag 1, so the
check fails with the invalid-discriminant error carrying `"E"` and 5. -/
theorem check_enum_invalid_discriminant_witness :
    checkEnum enumTwoUnit 5
      = .error ⟨Cause.invalidEnumDiscriminantError "E" 5, []⟩ :=
  (check_enum_invalid_discriminant enumTwoUnit 5 (by decide)).1

/-- The unnamed-field loop from enumeration index `i`: if the fields before
position `k` all check and the field at `k` fails with `e`, the loop
returns `e` wrapped with an `UnnamedEnumVariantCheckContext` whose
`field_index` is `i + k + 1`. -/
theorem checkUnnamedFieldsFrom_first_fail {ρ : Type} (enum_name : String)
    (variant_name : String) (r : ρ) (e : TraceError)
    (fs : List (ρ → CheckR)) :
    ∀ (k i : Nat) (hk : k < fs.length),
      (∀ c ∈ fs.take k, c r = .ok) →
      (fs.get ⟨k, hk⟩) r = .error e →
      checkUnnamedFieldsFrom enum_name variant_name i fs r
        = .error (e.context
            (Frame.unnamedEnumVariantCheck enum_name variant_name
              (i + k + 1))) := by
  induction fs with
  | nil => intro k i hk _ _; simp at hk
  | cons c rest ih =>
    intro k i hk hpre hfail
    cases k with
    | zero =>
      have hc : c r = .error e := hfail
      simp [checkUnnamedFieldsFrom, hc]
    | succ j =>
      have hc : c r = .ok := by
        apply hpre c
        simp only [List.take_succ_cons]
        exact List.mem_cons_self c _
      have hj : j < rest.length := Nat.lt_of_succ_lt_succ hk
      have hpre' : ∀ d ∈ rest.take j, d r = .ok := by
        intro d hd
        apply hpre d
        simp only [List.take_succ_cons]
        exact List.mem_cons_of_mem c hd
      simp only [checkUnnamedFieldsFrom, hc]
      rw [show i + (j + 1) + 1 = (i + 1) + j + 1 by omega]
      exact ih j (i + 1) hj hpre' hfail

/-- A derived enum shaped like `#[repr(u8)] enum E { V(bool) }`, validated
at a region whose discriminant is 0 and whose single payload byte is 7
(an invalid `bool`). -/
def enumOneUnnamed : EnumShape Int :=
  ⟨"E", fun _ => 0, [⟨"V", 0, FieldsShape.unnamed [fun _ => checkBool 7]⟩]⟩

/--
Counterexample to C6 as stated: in `enumOneUnnamed` the first invalid
field of variant `V` is the field at positional index `k = 0`, yet the
frame produced by the generated code carries `field_index = 1` — the
generated `check_arm_unnamed_field` reuses `Index::from(i + 1)` (the
field's position in the synthesized variant struct, after the tag) as the
reported `field_index` — so the reported index is not the positional
index 0.
-/
theorem check_enum_unnamed_field_index_counterexample :
    checkEnum enumOneUnnamed 0
      = .error ⟨Cause.boolCheckError 7,
          [Frame.unnamedEnumVariantCheck "E" "V" 1]⟩
    ∧ Frame.unnamedEnumVariantCheck "E" "V" 1
        ≠ Frame.unnamedEnumVariantCheck "E" "V" 0 := by
  decide

/--
Claim C6 (amended): for every derived enum validator over a variant with
unnamed fields, when the field at positional index `k` (0-indexed among
the variant's declared fields) is the first invalid field, the returned
error is wrapped with a frame carrying the enum's name, the variant's
name, and a field index equal to `k + 1` — the field's position in the
synthesized variant struct, whose component 0 is the tag.
-/
theorem check_enum_unnamed_field_frame {ρ : Type} (sh : EnumShape ρ)
    (r : ρ) (v : VariantShape ρ)
    (hfind : sh.variants.find? (fun w => w.tag == sh.read_tag r) = some v)
    (fs : List (ρ → CheckR)) (hf : v.fields = FieldsShape.unnamed fs)
    (k : Nat) (hk : k < fs.length)
    (hpre : ∀ c ∈ fs.take k, c r = .ok)
    (e : TraceError) (hfail : (fs.get ⟨k, hk⟩) r = .error e) :
    checkEnum sh r
      = .error (e.context
          (Frame.unnamedEnumVariantCheck sh.enum_name v.variant_name
            (k + 1))) := by
  have hloop := checkUnnamedFieldsFrom_first_fail sh.enum_name
    v.variant_name r e fs k 0 hk hpre hfail
  simp only [checkEnum, hfind, checkVariant, hf]
  simpa using hloop

/-- A derived enum shaped like `#[repr(i32)] enum F { W(bool, bool) = 3 }`,
validated at a region with discriminant 3, a valid first payload byte 1,
and an invalid second payload byte 9. -/
def enumTwoUnnamed : EnumShape Int :=
  ⟨"F", fun _ => 3,
    [⟨"W", 3,
      FieldsShape.unnamed [fun _ => checkBool 1, fun _ => checkBool 9]⟩]⟩

/-- Witness for C6 (amended): the first invalid field of `W` is at
positional index 1, and the frame carries field index 2. -/
theorem check_enum_unnamed_field_frame_witness :
    checkEnum enumTwoUnnamed 0
      = .error ⟨Cause.boolCheckError 9,
          [Frame.unnamedEnumVariantCheck "F" "W" 2]⟩ := by
  have h := check_enum_unnamed_field_frame enumTwoUnnamed 0
    ⟨"W", 3, FieldsShape.unnamed [fun _ => checkBool 1, fun _ => checkBool 9]⟩
    rfl [fun _ => checkBool 1, fun _ => checkBool 9] rfl 1 (by decide)
    (by
      intro c hc
      simp only [List.take_succ_cons, List.take_zero,
        List.mem_singleton] at hc
      subst hc
      rfl)
    ⟨Cause.boolCheckError 9, []⟩ rfl
  exact h

/--
Claim C8: the derived `check_bytes` of a zero-field (unit) record succeeds
for every region contents, and a derived enum whose matched variant has no
payload succeeds.
-/
theorem check_unit_record_and_variant {ρ : Type} (r : ρ)
    (sh : EnumShape ρ) (v : VariantShape ρ)
    (hfind : sh.variants.find? (fun w => w.tag == sh.read_tag r) = some v)
    (hunit : v.fields = FieldsShape.unit) :
    checkUnitStruct r = .ok ∧ checkEnum sh r = .ok := by
  refine ⟨rfl, ?_⟩
  simp [checkEnum, hfind, checkVariant, hunit]

/-- Witness for C8: the unit-variant enum `E` accepts discriminant 1 (the
unit variant `B`), and a unit struct accepts any region. -/
theorem check_unit_record_and_variant_witness :
    checkUnitStruct (1 : Int) = .ok ∧ checkEnum enumTwoUnit 1 = .ok :=
  check_unit_record_and_variant 1 enumTwoUnit
    ⟨"B", 1, FieldsShape.unit⟩ rfl rfl

/--
Claim C3: for the boolean shape, `check_bytes` succeeds iff the single
byte is 0 or 1; for every other byte value it fails with a cause naming
the offending byte.
-/
theorem checkBool_legal_iff (b : Nat) (hb : b < 256) :
    (checkBool b = .ok ↔ (b = 0 ∨ b = 1))
    ∧ (b ≠ 0 → b ≠ 1 →
        checkBool b = .error (TraceError.new (Cause.boolCheckError b))) := by
  rcases b with _ | _ | n
  · exact ⟨iff_of_true rfl (Or.inl rfl), fun h0 _ => absurd rfl h0⟩
  · exact ⟨iff_of_true rfl (Or.inr rfl), fun _ h1 => absurd rfl h1⟩
  · refine ⟨iff_of_false (fun h => CheckResult.noConfusion h) ?_,
      fun _ _ => rfl⟩
    rintro (h | h) <;> exact absurd h (by omega)

/-- Witness for C3: byte 1 is accepted, byte 7 is rejected with
`BoolCheckError` naming 7. -/
theorem checkBool_legal_iff_witness :
    checkBool 1 = .ok
    ∧ checkBool 7 = .error (TraceError.new (Cause.boolCheckError 7)) :=
  ⟨(checkBool_legal_iff 1 (by decide)).1.mpr (Or.inr rfl),
   (checkBool_legal_iff 7 (by decide)).2 (by decide) (by decide)⟩

/-- Restates the boolean guard of `charTryFrom` as a proposition. -/
theorem charTryFrom_eq (i : Nat) :
    charTryFrom i
      = if 0x10FFFF < i ∨ (0xD800 ≤ i ∧ i < 0xE000) then
          .error Cause.charTryFromError
        else .ok := by
  unfold charTryFrom
  simp only [Bool.or_eq_true, Bool.and_eq_true, decide_eq_true_eq]

/--
Claim C4: for the scalar-character shape, `check_bytes` succeeds iff the
4-byte value is a legal Unicode scalar value, and fails for every value
in the surrogate range `0xD800..=0xDFFF` and for every value above
`0x10FFFF`.
-/
theorem checkChar_scalar_iff (v : Nat) (hv : v < 2 ^ 32) :
    (checkChar v = .ok ↔ (v < 0xD800 ∨ (0xDFFF < v ∧ v ≤ 0x10FFFF)))
    ∧ (0xD800 ≤ v → v ≤ 0xDFFF →
        checkChar v = .error (TraceError.new Cause.charTryFromError))
    ∧ (0x10FFFF < v →
        checkChar v = .error (TraceError.new Cause.charTryFromError)) := by
  unfold checkChar
  rw [charTryFrom_eq v]
  by_cases h : 0x10FFFF < v ∨ (0xD800 ≤ v ∧ v < 0xE000)
  · rw [if_pos h]
    refine ⟨iff_of_false (fun hok => CheckResult.noConfusion hok) ?_,
      fun _ _ => rfl, fun _ => rfl⟩
    intro hs
    omega
  · rw [if_neg h]
    refine ⟨iff_of_true rfl (by omega), ?_, ?_⟩
    · intro h1 h2
      exfalso
      omega
    · intro h1
      exfalso
      omega

/-- Witness for C4: `0x78` is accepted; the surrogate `0xD800` and the
out-of-range `0x110000` are rejected. -/
theorem checkChar_scalar_iff_witness :
    checkChar 0x78 = .ok
    ∧ checkChar 0xD800 = .error (TraceError.new Cause.charTryFromError)
    ∧ checkChar 0x110000 = .error (TraceError.new Cause.charTryFromError) :=
  ⟨(checkChar_scalar_iff 0x78 (by decide)).1.mpr (Or.inl (by decide)),
   (checkChar_scalar_iff 0xD800 (by decide)).2.1 (by decide) (by decide),
   (checkChar_scalar_iff 0x110000 (by decide)).2.2 (by decide)⟩

/--
Counterexample to C7 as stated: the two distinct illegal code units
`0xD800` and `0xD801` produce identical errors — the cause is core's
payload-free `CharTryFromError` — so no reading of the returned error
recovers the offending value.
-/
theorem checkChar_names_value_counterexample :
    ¬ ∃ f : TraceError → Nat, ∀ v : Nat, 0xD800 ≤ v → v ≤ 0xDFFF →
        ∀ e : TraceError, checkChar v = .error e → f e = v := by
  rintro ⟨f, hf⟩
  have h1 := hf 0xD800 (by decide) (by decide)
    (TraceError.new Cause.charTryFromError) (by decide)
  have h2 := hf 0xD801 (by decide) (by decide)
    (TraceError.new Cause.charTryFromError) (by decide)
  omega

/--
Claim C7 (amended): when the 4-byte value is not a legal Unicode scalar
value, `check_bytes` for the scalar-character shape returns the fixed
conversion error: its cause is core's `CharTryFromError`, a unit struct
that does not carry the offending value.
-/
theorem checkChar_invalid_fixed_error (v : Nat) (hv : v < 2 ^ 32)
    (h : ¬(v < 0xD800 ∨ (0xDFFF < v ∧ v ≤ 0x10FFFF))) :
    checkChar v = .error (TraceError.new Cause.charTryFromError) := by
  unfold checkChar
  rw [charTryFrom_eq v, if_pos (by omega)]

/-- Witness for C7 (amended): the surrogate `0xDABC` is rejected with the
fixed, value-free conversion error. -/
theorem checkChar_invalid_fixed_error_witness :
    checkChar 0xDABC = .error (TraceError.new Cause.charTryFromError) :=
  checkChar_invalid_fixed_error 0xDABC (by decide) (by decide)

/-- Reading a `w`-bit pattern (`0 < w`) as a signed integer yields zero
exactly when the bit pattern is all zeros. -/
theorem toSignedInt_eq_zero_iff (w v : Nat) (_hw : 0 < w)
    (hv : v < 2 ^ w) :
    toSignedInt w v = 0 ↔ v = 0 := by
  unfold toSignedInt
  split
  · exact_mod_cast Iff.rfl
  · next hge =>
    push_neg at hge
    constructor
    · intro h
      exfalso
      have hcast : (v : Int) = (2 : Int) ^ w := by linarith
      have hnat : v = 2 ^ w := by exact_mod_cast hcast
      omega
    · intro h
      subst h
      exfalso
      have hpos : 0 < 2 ^ (w - 1) := pow_pos (by norm_num) (w - 1)
      omega

/--
Claim C5: for every non-zero integer shape (signed and unsigned, width
`w` bits), `check_bytes` succeeds iff the bit pattern read as the
underlying integer is nonzero, and fails iff all bits are zero, with the
fixed, value-free `NonZeroCheckError`.
-/
theorem checkNonZero_iff (w v : Nat) (hw : 0 < w) (hv : v < 2 ^ w) :
    (checkNonZeroUnsigned v = .ok ↔ v ≠ 0)
    ∧ (checkNonZeroSigned w v = .ok ↔ v ≠ 0)
    ∧ (v = 0 →
        checkNonZeroUnsigned v
            = .error (TraceError.new Cause.nonZeroCheckError)
        ∧ checkNonZeroSigned w v
            = .error (TraceError.new Cause.nonZeroCheckError)) := by
  have hz := toSignedInt_eq_zero_iff w v hw hv
  unfold checkNonZeroUnsigned checkNonZeroSigned
  by_cases h : v = 0
  · subst h
    rw [if_pos rfl, if_pos (hz.mpr rfl)]
    exact ⟨iff_of_false (fun hok => CheckResult.noConfusion hok)
        (fun hne => hne rfl),
      iff_of_false (fun hok => CheckResult.noConfusion hok)
        (fun hne => hne rfl),
      fun _ => ⟨rfl, rfl⟩⟩
  · rw [if_neg h, if_neg (fun hc => h (hz.mp hc))]
    exact ⟨iff_of_true rfl h, iff_of_true rfl h, fun hc => absurd hc h⟩

/-- Witness for C5 at width 8: patterns 7 and 255 are accepted (unsigned
and signed reading), pattern 0 is rejected with the fixed error. -/
theorem checkNonZero_iff_witness :
    checkNonZeroUnsigned 7 = .ok
    ∧ checkNonZeroSigned 8 255 = .ok
    ∧ checkNonZeroUnsigned 0
        = .error (TraceError.new Cause.nonZeroCheckError)
    ∧ checkNonZeroSigned 8 0
        = .error (TraceError.new Cause.nonZeroCheckError) := by
  have h7 := checkNonZero_iff 8 7 (by decide) (by decide)
  have h255 := checkNonZero_iff 8 255 (by decide) (by decide)
  have h0 := checkNonZero_iff 8 0 (by decide) (by decide)
  exact ⟨h7.1.mpr (by decide), h255.2.1.mpr (by decide),
    (h0.2.2 rfl).1, (h0.2.2 rfl).2⟩

/--
Claim C9: for the minimal error kind `Failure`, every construction and
context-attachment operation returns the same information-free value:
`new` discards the source, `context` discards the frame and returns
`self` unchanged, and `new_with` is independent of the `make_source`
closure for every source type — its body never applies the closure, so no
cause object is constructed in minimal mode.
-/
theorem failure_discards_everything :
    (∀ (T : Type) (s t : T), Failure.new s = Failure.new t
        ∧ Failure.new s = Failure.mk)
    ∧ (∀ (T : Type) (f g : Unit → T),
        Failure.new_with f = Failure.new_with g
        ∧ Failure.new_with f = Failure.mk)
    ∧ (∀ (T : Type) (e : Failure) (c : T), Failure.context e c = e) :=
  ⟨fun _ _ _ => ⟨rfl, rfl⟩, fun _ _ _ => ⟨rfl, rfl⟩, fun _ _ _ => rfl⟩

/-- Witness for C9: concrete instances of the three `Failure` equations. -/
theorem failure_discards_everything_witness :
    Failure.new (3 : Nat) = Failure.mk
    ∧ Failure.new_with (fun _ => (7 : Nat)) = Failure.mk
    ∧ Failure.context Failure.mk (5 : Nat) = Failure.mk :=
  ⟨(failure_discards_everything.1 Nat 3 3).2,
   (failure_discards_everything.2.1 Nat (fun _ => 7) (fun _ => 7)).2,
   failure_discards_everything.2.2 Nat Failure.mk 5⟩

/--
Claim C10: for every `Range<T>`, `check_bytes` succeeds iff `T`'s
`check_bytes` succeeds on the `start` field and on the `end` field; no
ordering between `start` and `end` is checked, so a region encoding
`start > end` (here `5 > 3` with a primitive element shape) still
validates.
-/
theorem checkRange_ok_iff :
    (∀ (α : Type) (check : α → CheckR) (s e : α),
        checkRange check s e = .ok ↔ (check s = .ok ∧ check e = .ok))
    ∧ (3 < 5 ∧ checkRange checkPrimitive (5 : Nat) 3 = .ok) := by
  constructor
  · intro α check s e
    unfold checkRange
    cases hs : check s with
    | error err =>
      refine iff_of_false (fun h => CheckResult.noConfusion h) ?_
      rintro ⟨h1, _⟩
      exact CheckResult.noConfusion h1
    | ok =>
      cases he : check e with
      | error err =>
        refine iff_of_false (fun h => CheckResult.noConfusion h) ?_
        rintro ⟨_, h2⟩
        exact CheckResult.noConfusion h2
      | ok => exact iff_of_true rfl ⟨rfl, rfl⟩
  · exact ⟨by omega, rfl⟩

/-- Witness for C10: a range region with `start = 5`, `end = 3` over a
primitive element shape validates successfully. -/
theorem checkRange_ok_iff_witness :
    checkRange checkPrimitive (5 : Nat) 3 = .ok :=
  (checkRange_ok_iff.1 Nat checkPrimitive 5 3).mpr ⟨rfl, rfl⟩

example : checkBool 0 = .ok := by decide
example : checkBool 1 = .ok := by decide
example : checkBool 7 = .error ⟨Cause.boolCheckError 7, []⟩ := by decide
example : checkChar 0x78 = .ok := by decide
example : checkChar 0xD800 = .error ⟨Cause.charTryFromError, []⟩ := by decide
example : checkChar 0x110000 = .error ⟨Cause.charTryFromError, []⟩ := by
  decide
example : checkNonZeroUnsigned 0
    = .error ⟨Cause.nonZeroCheckError, []⟩ := by decide
example : checkNonZeroSigned 8 255 = .ok := by decide
